import Mathlib

/-!
Shallow embedding of the fitness-rewards ledger (onesvat/fitness-rewards).

The embedding translates the balance/transaction/chat-registration state and
the HTTP endpoint handlers of `src/fitness_rewards/main.py` and `server.py`
into pure Lean functions over an explicit database state.  Timestamps are
modelled as `Nat` values passed in as `now`; Python integers are `Int`.
The SQLAlchemy session/commit discipline of each handler is modelled by a
function from the database state to a new database state plus a response:
a handler that raises `HTTPException` before mutating anything returns the
input state unchanged (the session is discarded without commit).
-/

namespace FitnessRewards

/-- `balance` table (`models/database.py`): a single row holding the point
total.  The singleton row is modelled as an `Option Balance` in `DB`
(`db.query(Balance).first()` is the option). -/
structure Balance where
  total_points : Int
  created_at : Nat
  updated_at : Nat
  deriving Repr, DecidableEq

/-- `transactions` table (`models/database.py`): append-only log rows. -/
structure Transaction where
  id : Nat
  timestamp : Nat
  type : String
  name : String
  count : Int
  balance_after : Int
  description : String
  deriving Repr, DecidableEq

/-- `chat_registrations` table (`models/database.py`).  `is_active` is an
integer column (1 active, 0 inactive), kept as `Int` as in the schema. -/
structure ChatRegistration where
  chat_id : Int
  username : Option String
  first_name : Option String
  last_name : Option String
  registered_at : Nat
  last_notification : Option Nat
  is_active : Int
  deriving Repr, DecidableEq

/-- The SQLite database state visible to the handlers.  `transactions` is in
insertion order; `nextTxId` models the autoincrement primary key. -/
structure DB where
  balance : Option Balance
  transactions : List Transaction
  chats : List ChatRegistration
  nextTxId : Nat
  deriving Repr, DecidableEq

/-- The current total as reported by the handlers: `balance.total_points`
when the row exists, else 0. -/
def balTotal (db : DB) : Int :=
  match db.balance with
  | none => 0
  | some b => b.total_points

/-- The client errors the balance endpoints raise as HTTP 400
(`HTTPException` details in `main.py`): `Count must be greater than 0`, and
`Insufficient balance. Current: .., Requested: ..`. -/
inductive ApiError where
  | invalidAmount : ApiError
  | insufficientBalance (current requested : Int) : ApiError
  deriving Repr, DecidableEq

/-- `GET /withdraw` handler `withdraw_points` (`main.py` lines 130-179,
balance/transaction effect).  Returns the (possibly unchanged) database and
either the error raised or the new balance returned in the response. -/
def withdraw_points (name : String) (count : Int) (now : Nat) (db : DB) :
    DB × Except ApiError Int :=
  if count ≤ 0 then
    (db, .error .invalidAmount)
  else
    match db.balance with
    | none =>
        -- `if not balance or balance.total_points < count`: missing row is
        -- reported with current = 0
        (db, .error (.insufficientBalance 0 count))
    | some b =>
        if b.total_points < count then
          (db, .error (.insufficientBalance b.total_points count))
        else
          let new_balance := b.total_points - count
          let tx : Transaction :=
            { id := db.nextTxId
              timestamp := now
              type := "withdraw"
              name := name
              count := count
              balance_after := new_balance
              description := "Withdrawal for " ++ name }
          ({ db with
              balance := some { b with total_points := new_balance, updated_at := now }
              transactions := db.transactions ++ [tx]
              nextTxId := db.nextTxId + 1 },
           .ok new_balance)

/-- `GET /deposit` handler `deposit_points` (`main.py` lines 182-218). -/
def deposit_points (name : String) (count : Int) (now : Nat) (db : DB) :
    DB × Except ApiError Int :=
  if count ≤ 0 then
    (db, .error .invalidAmount)
  else
    let b' : Balance :=
      match db.balance with
      | none =>
          -- `Balance(total_points=count)`: column defaults set both times to now
          { total_points := count, created_at := now, updated_at := now }
      | some b =>
          { b with total_points := b.total_points + count, updated_at := now }
    let tx : Transaction :=
      { id := db.nextTxId
        timestamp := now
        type := "deposit"
        name := name
        count := count
        balance_after := b'.total_points
        description := "Manual deposit from " ++ name }
    ({ db with
        balance := some b'
        transactions := db.transactions ++ [tx]
        nextTxId := db.nextTxId + 1 },
     .ok b'.total_points)

/-- `GET /webhook` handler `receive_webhook` for `event="revolution_add"`
(`server.py` lines 104-155), balance/transaction effect only (the
`workout_events` insert does not touch the ledger).  `count = none` is the
400 error path; the deposit runs under Python truthiness `and count`
(so `count = 0` is skipped, but negative counts pass), and only when a
balance row exists. -/
def webhook_revolution_add (workoutId : Int) (count : Option Int) (now : Nat)
    (db : DB) : DB :=
  match count with
  | none => db
  | some c =>
      if c = 0 then db
      else
        match db.balance with
        | none => db
        | some b =>
            let b' := { b with total_points := b.total_points + c, updated_at := now }
            let tx : Transaction :=
              { id := db.nextTxId
                timestamp := now
                type := "deposit"
                name := "workout"
                count := c
                balance_after := b'.total_points
                description := "Auto-deposit from workout " ++ toString workoutId }
            { db with
                balance := some b'
                transactions := db.transactions ++ [tx]
                nextTxId := db.nextTxId + 1 }

/-- The balance-mutating operations the HTTP surface exposes. -/
inductive Op where
  | deposit (name : String) (count : Int) (now : Nat) : Op
  | withdraw (name : String) (count : Int) (now : Nat) : Op
  | webhook (workoutId : Int) (count : Option Int) (now : Nat) : Op
  deriving Repr, DecidableEq

/-- Apply one operation, discarding the HTTP response. -/
def applyOp (db : DB) : Op → DB
  | .deposit name count now => (deposit_points name count now db).1
  | .withdraw name count now => (withdraw_points name count now db).1
  | .webhook workoutId count now => webhook_revolution_add workoutId count now db

/-- Run a sequence of operations. -/
def run (ops : List Op) (db : DB) : DB :=
  ops.foldl applyOp db

/-- Fresh store: no balance row, no transactions (the state before
`init_database` has run). -/
def emptyDB : DB :=
  { balance := none, transactions := [], chats := [], nextTxId := 1 }

/-- Store right after startup: `init_database` / the `server.py` lifespan
seed a balance row with `total_points = 0`. -/
def initDB : DB :=
  { balance := some { total_points := 0, created_at := 0, updated_at := 0 }
    transactions := [], chats := [], nextTxId := 1 }

/-- Signed amount of a committed transaction: deposits count positively,
withdrawals negatively. -/
def signedAmount (t : Transaction) : Int :=
  if t.type = "withdraw" then -t.count else t.count

/-- Sum of signed amounts of a transaction list. -/
def sumSigned (ts : List Transaction) : Int :=
  (ts.map signedAmount).sum

/-- Replay a transaction list from balance `b`, checking that applying each
kind-signed amount reproduces that transaction's `balance_after`. -/
def replayCheck (b : Int) : List Transaction → Bool
  | [] => true
  | t :: ts =>
      let b' := b + signedAmount t
      (b' == t.balance_after) && replayCheck b' ts

/-- Replace the first element satisfying `p` (SQLAlchemy `.first()` followed
by an in-place mutation and commit). -/
def updateFirst (p : α → Bool) (f : α → α) : List α → List α
  | [] => []
  | x :: xs => if p x then f x :: xs else x :: updateFirst p f xs

/-- Outcome reported by `POST /register_chat`: the `message` field
distinguishes `Chat registered successfully` from `Chat registration
updated`. -/
inductive RegisterOutcome where
  | created : RegisterOutcome
  | updated : RegisterOutcome
  deriving Repr, DecidableEq

/-- `POST /register_chat` handler `register_chat` (`main.py` lines 259-297).
If a row with this `chat_id` exists, its metadata is overwritten,
`is_active` set to 1 and `registered_at` refreshed; otherwise a new row is
inserted with the column defaults (`is_active = 1`,
`last_notification = NULL`). -/
def register_chat (chat_id : Int) (username first_name last_name : Option String)
    (now : Nat) (db : DB) : DB × RegisterOutcome :=
  match db.chats.find? (fun c => c.chat_id == chat_id) with
  | some _ =>
      ({ db with
          chats := updateFirst (fun c => c.chat_id == chat_id)
            (fun c => { c with
                username := username
                first_name := first_name
                last_name := last_name
                is_active := 1
                registered_at := now }) db.chats },
       .updated)
  | none =>
      ({ db with
          chats := db.chats ++
            [{ chat_id := chat_id
               username := username
               first_name := first_name
               last_name := last_name
               registered_at := now
               last_notification := none
               is_active := 1 }] },
       .created)

/-- Outcome reported by `POST /unregister_chat`: `status` field values
`error` (chat not found), `info` (already unregistered), `success`. -/
inductive UnregisterOutcome where
  | success : UnregisterOutcome
  | already_inactive : UnregisterOutcome
  | not_found : UnregisterOutcome
  deriving Repr, DecidableEq

/-- `POST /unregister_chat` handler `unregister_chat` (`main.py` lines
322-354).  Marks the row inactive instead of deleting it. -/
def unregister_chat (chat_id : Int) (db : DB) : DB × UnregisterOutcome :=
  match db.chats.find? (fun c => c.chat_id == chat_id) with
  | none => (db, .not_found)
  | some c =>
      if c.is_active = 0 then
        (db, .already_inactive)
      else
        ({ db with
            chats := updateFirst (fun c => c.chat_id == chat_id)
              (fun c => { c with is_active := 0 }) db.chats },
         .success)

/-- Descending insertion by `timestamp` (ties keep the existing element
first; SQLite leaves tie order unspecified, and no claim depends on it). -/
def insertTsDesc (t : Transaction) : List Transaction → List Transaction
  | [] => [t]
  | u :: us =>
      if t.timestamp ≤ u.timestamp then u :: insertTsDesc t us
      else t :: u :: us

/-- `ORDER BY timestamp DESC`. -/
def sortTsDesc (l : List Transaction) : List Transaction :=
  l.foldr insertTsDesc []

/-- The `type` WHERE clause: applied only when the parameter is truthy and
a member of `["deposit", "withdraw"]` (`if type and type in [...]`). -/
def filterType (ty : Option String) (l : List Transaction) : List Transaction :=
  match ty with
  | some s =>
      if s = "deposit" ∨ s = "withdraw" then l.filter (fun t => t.type == s)
      else l
  | none => l

/-- The `start_date` WHERE clause (`Transaction.timestamp >= start_date`). -/
def filterStart (start_date : Option Nat) (l : List Transaction) :
    List Transaction :=
  match start_date with
  | some d => l.filter (fun t => d ≤ t.timestamp)
  | none => l

/-- The `end_date` WHERE clause (`Transaction.timestamp <= end_date`). -/
def filterEnd (end_date : Option Nat) (l : List Transaction) :
    List Transaction :=
  match end_date with
  | some d => l.filter (fun t => t.timestamp ≤ d)
  | none => l

/-- `GET /transactions` handler `get_transactions` (`main.py` lines
221-256): SQL semantics of the composed query — WHERE filters, then
`ORDER BY timestamp DESC`, then `LIMIT limit`.  A negative SQLite LIMIT
means no bound. -/
def get_transactions (limit : Int) (ty : Option String)
    (start_date end_date : Option Nat) (db : DB) : List Transaction :=
  let q := filterEnd end_date (filterStart start_date
    (filterType ty db.transactions))
  let sorted := sortTsDesc q
  if limit < 0 then sorted else sorted.take limit.toNat

/-- `LOW_BALANCE_THRESHOLD` — default 50 in both `main.py` and
`clients/telegram_bot.py`. -/
def LOW_BALANCE_THRESHOLD : Int := 50

/-- `check_if_first_time_below_threshold` (`main.py` lines 85-89): the
server-side transition test run after each withdrawal. -/
def check_if_first_time_below_threshold (previous_balance current_balance : Int) :
    Bool :=
  previous_balance ≥ LOW_BALANCE_THRESHOLD ∧ current_balance < LOW_BALANCE_THRESHOLD

/-- The process-wide monitoring state of `clients/telegram_bot.py`
(`last_known_balance`, `low_balance_warning_sent`). -/
structure MonitorState where
  last_known_balance : Int
  low_balance_warning_sent : Bool
  deriving Repr, DecidableEq

/-- One successful poll iteration of `monitor_balance_changes`
(`telegram_bot.py` lines 526-572), restricted to the low-balance warning
logic: returns the new state and whether a low-balance notification was
sent this iteration.  The code fires when
`current_balance <= LOW_BALANCE_THRESHOLD and not low_balance_warning_sent`
and resets the flag when `current_balance > LOW_BALANCE_THRESHOLD and
low_balance_warning_sent`. -/
def monitorStep (s : MonitorState) (current_balance : Int) :
    MonitorState × Bool :=
  let fires := current_balance ≤ LOW_BALANCE_THRESHOLD ∧ ¬s.low_balance_warning_sent
  let sent' :=
    if current_balance ≤ LOW_BALANCE_THRESHOLD ∧ ¬s.low_balance_warning_sent then
      true
    else if current_balance > LOW_BALANCE_THRESHOLD ∧ s.low_balance_warning_sent then
      false
    else
      s.low_balance_warning_sent
  ({ last_known_balance := current_balance, low_balance_warning_sent := sent' },
   fires)

/-- Run a sequence of polled balances through `monitorStep`, counting the
low-balance notifications sent. -/
def runMonitor (s : MonitorState) : List Int → MonitorState × Nat
  | [] => (s, 0)
  | b :: bs =>
      let (s', fired) := monitorStep s b
      let (s'', n) := runMonitor s' bs
      (s'', (if fired then 1 else 0) + n)

/-- Startup initialisation of the monitor (`telegram_bot.py` lines 506-517):
the first fetched balance seeds `last_known_balance`, and a warning is sent
immediately when it is already at or below the threshold. -/
def monitorInit (initial_balance : Int) : MonitorState × Bool :=
  if initial_balance ≤ LOW_BALANCE_THRESHOLD then
    ({ last_known_balance := initial_balance, low_balance_warning_sent := true },
     true)
  else
    ({ last_known_balance := initial_balance, low_balance_warning_sent := false },
     false)

/-- A store holding 10 points and nothing else (the spec scenario state). -/
def dbTen : DB :=
  { balance := some { total_points := 10, created_at := 0, updated_at := 0 }
    transactions := [], chats := [], nextTxId := 1 }

/-! ## Theorems -/

/-- C1 (code-bug evidence): the webhook `revolution_add` path misses the
positivity check its sibling endpoints have.  On the startup store (balance
row seeded with 0), a single `revolution_add` event with `count = -5`
drives `Balance.total_points` to `-5`, while `withdraw_points` and
`deposit_points` both reject `-5` with `InvalidAmount`. -/
theorem webhook_negative_count_drives_balance_negative :
    balTotal (run [.webhook 7 (some (-5)) 1] initDB) = -5 ∧
    balTotal initDB = 0 ∧
    (∀ name now db, (withdraw_points name (-5) now db).2 = .error .invalidAmount) ∧
    (∀ name now db, (deposit_points name (-5) now db).2 = .error .invalidAmount) := by
  refine ⟨by decide, by decide, ?_, ?_⟩ <;>
    · intro name now db
      simp [withdraw_points, deposit_points, show (-5 : Int) ≤ 0 by decide]

/-- C3: a withdrawal of a positive amount exceeding the current balance
(0 when no balance row exists) fails with `InsufficientBalance` carrying
the current balance and the requested amount, and returns the store
unchanged: no transaction appended, no balance mutation. -/
theorem withdraw_insufficient_rejected (name : String) (count : Int) (now : Nat)
    (db : DB) (hpos : 0 < count) (hlt : balTotal db < count) :
    withdraw_points name count now db =
      (db, .error (.insufficientBalance (balTotal db) count)) := by
  have h0 : ¬count ≤ 0 := not_le.mpr hpos
  cases hdb : db.balance with
  | none => simp [withdraw_points, balTotal, hdb, h0]
  | some b =>
      have hlt' : b.total_points < count := by simpa [balTotal, hdb] using hlt
      simp [withdraw_points, balTotal, hdb, h0, hlt']

/-- C3 witness: `withdraw("gaming", 15)` on a 10-point store is rejected
with `InsufficientBalance{current:10, requested:15}` and mutates nothing. -/
theorem withdraw_insufficient_rejected_witness :
    withdraw_points "gaming" 15 1 dbTen =
      (dbTen, .error (.insufficientBalance 10 15)) :=
  withdraw_insufficient_rejected "gaming" 15 1 dbTen (by decide) (by decide)

/-- C4: for both deposit and withdraw, a non-positive amount is rejected
with `InvalidAmount` (the HTTP 400 `Count must be greater than 0` path)
and the store is returned unchanged — no clamping or truncation. -/
theorem nonpositive_amount_rejected (name : String) (count : Int) (now : Nat)
    (db : DB) (h : count ≤ 0) :
    withdraw_points name count now db = (db, .error .invalidAmount) ∧
    deposit_points name count now db = (db, .error .invalidAmount) := by
  constructor
  · unfold withdraw_points
    rw [if_pos h]
  · unfold deposit_points
    rw [if_pos h]

/-- C4 witness: depositing or withdrawing `-5` on a 10-point store fails
with `InvalidAmount` and leaves the store untouched. -/
theorem nonpositive_amount_rejected_witness :
    withdraw_points "gaming" (-5) 1 dbTen = (dbTen, .error .invalidAmount) ∧
    deposit_points "bonus" (-5) 1 dbTen = (dbTen, .error .invalidAmount) :=
  ⟨(nonpositive_amount_rejected "gaming" (-5) 1 dbTen (by decide)).1,
   (nonpositive_amount_rejected "bonus" (-5) 1 dbTen (by decide)).2⟩

/-- C5: a deposit of a positive amount yields a balance row holding the old
total (0 when the row is freshly created) plus the amount with `updated_at`
refreshed to now, appends exactly one `deposit` transaction whose
`balance_after` is the new total, returns the new total, and touches
nothing else. -/
theorem deposit_success (name : String) (count : Int) (now : Nat) (db : DB)
    (h : 0 < count) :
    ((deposit_points name count now db).1.balance.map Balance.total_points =
      some (balTotal db + count)) ∧
    ((deposit_points name count now db).1.balance.map Balance.updated_at =
      some now) ∧
    ((deposit_points name count now db).1.transactions = db.transactions ++
      [{ id := db.nextTxId, timestamp := now, type := "deposit", name := name,
         count := count, balance_after := balTotal db + count,
         description := "Manual deposit from " ++ name }]) ∧
    ((deposit_points name count now db).2 = .ok (balTotal db + count)) ∧
    ((deposit_points name count now db).1.chats = db.chats) := by
  have h0 : ¬count ≤ 0 := not_le.mpr h
  cases hdb : db.balance with
  | none => simp [deposit_points, balTotal, hdb, h0]
  | some b => simp [deposit_points, balTotal, hdb, h0]

/-- C5 witness: `deposit("workout", 10)` on the empty store creates the
balance row seeded with 10 and appends the single matching transaction. -/
theorem deposit_success_witness :
    ((deposit_points "workout" 10 1 emptyDB).1.balance.map Balance.total_points =
      some 10) ∧
    ((deposit_points "workout" 10 1 emptyDB).1.balance.map Balance.updated_at =
      some 1) ∧
    ((deposit_points "workout" 10 1 emptyDB).1.transactions =
      [{ id := 1, timestamp := 1, type := "deposit", name := "workout",
         count := 10, balance_after := 10,
         description := "Manual deposit from workout" }]) ∧
    ((deposit_points "workout" 10 1 emptyDB).2 = .ok 10) ∧
    ((deposit_points "workout" 10 1 emptyDB).1.chats = []) :=
  deposit_success "workout" 10 1 emptyDB (by decide)

lemma sumSigned_append (ts : List Transaction) (t : Transaction) :
    sumSigned (ts ++ [t]) = sumSigned ts + signedAmount t := by
  simp [sumSigned]

lemma replayCheck_append (b : Int) (ts : List Transaction) (t : Transaction)
    (h : replayCheck b ts = true)
    (hb : t.balance_after = b + sumSigned ts + signedAmount t) :
    replayCheck b (ts ++ [t]) = true := by
  induction ts generalizing b with
  | nil =>
      simp [replayCheck]
      rw [hb]
      simp [sumSigned]
  | cons u us ih =>
      simp [replayCheck] at h ⊢
      refine ⟨h.1, ih _ h.2 ?_⟩
      rw [hb]
      simp [sumSigned]
      ring

/-- The consistency invariant the ledger maintains: the current total equals
the signed sum of the log, replaying the log from 0 reproduces every
`balance_after`, transaction ids are strictly increasing in insertion
order, and all ids are below the autoincrement counter. -/
def ledgerOk (db : DB) : Prop :=
  balTotal db = sumSigned db.transactions ∧
  replayCheck 0 db.transactions = true ∧
  (db.transactions.map Transaction.id).Pairwise (· < ·) ∧
  ∀ t ∈ db.transactions, t.id < db.nextTxId

lemma ledgerOk_append (db : DB) (b' : Balance) (tx : Transaction)
    (h : ledgerOk db)
    (hid : tx.id = db.nextTxId)
    (hbal : b'.total_points = balTotal db + signedAmount tx)
    (hafter : tx.balance_after = b'.total_points) :
    ledgerOk { db with
        balance := some b'
        transactions := db.transactions ++ [tx]
        nextTxId := db.nextTxId + 1 } := by
  obtain ⟨hsum, hreplay, hpair, hlt⟩ := h
  refine ⟨?_, ?_, ?_, ?_⟩
  · show b'.total_points = sumSigned (db.transactions ++ [tx])
    rw [sumSigned_append, hbal, hsum]
  · exact replayCheck_append 0 db.transactions tx hreplay
      (by rw [hafter, hbal, hsum]; ring)
  · show ((db.transactions ++ [tx]).map Transaction.id).Pairwise (· < ·)
    rw [List.map_append, List.pairwise_append]
    refine ⟨hpair, List.pairwise_singleton _ _, ?_⟩
    intro a ha bb hb
    simp at hb
    obtain ⟨t, ht, rfl⟩ := List.mem_map.mp ha
    rw [hb, hid]
    exact hlt t ht
  · intro t ht
    rcases List.mem_append.mp ht with h1 | h2
    · exact Nat.lt_succ_of_lt (hlt t h1)
    · simp at h2
      subst h2
      rw [hid]
      exact Nat.lt_succ_self _

lemma applyOp_preserves (db : DB) (op : Op) (h : ledgerOk db) :
    ledgerOk (applyOp db op) := by
  cases op with
  | deposit name count now =>
      show ledgerOk (deposit_points name count now db).1
      by_cases h0 : count ≤ 0
      · simp [deposit_points, h0]
        exact h
      · cases hdb : db.balance with
        | none =>
            simp only [deposit_points, if_neg h0, hdb]
            exact ledgerOk_append db _ _ h rfl
              (by simp [balTotal, hdb, signedAmount]) rfl
        | some b =>
            simp only [deposit_points, if_neg h0, hdb]
            exact ledgerOk_append db _ _ h rfl
              (by simp [balTotal, hdb, signedAmount]) rfl
  | withdraw name count now =>
      show ledgerOk (withdraw_points name count now db).1
      by_cases h0 : count ≤ 0
      · simp [withdraw_points, h0]
        exact h
      · cases hdb : db.balance with
        | none =>
            simp [withdraw_points, if_neg h0, hdb]
            exact h
        | some b =>
            by_cases hlt : b.total_points < count
            · simp [withdraw_points, if_neg h0, hdb, hlt]
              exact h
            · simp only [withdraw_points, if_neg h0, hdb, if_neg hlt]
              exact ledgerOk_append db _ _ h rfl
                (by simp [balTotal, hdb, signedAmount]; ring) rfl
  | webhook workoutId count now =>
      show ledgerOk (webhook_revolution_add workoutId count now db)
      cases count with
      | none => exact h
      | some c =>
          by_cases hc : c = 0
          · simp [webhook_revolution_add, hc]
            exact h
          · cases hdb : db.balance with
            | none =>
                simp [webhook_revolution_add, hc, hdb]
                exact h
            | some b =>
                simp only [webhook_revolution_add, if_neg hc, hdb]
                exact ledgerOk_append db _ _ h rfl
                  (by simp [balTotal, hdb, signedAmount]) rfl

lemma run_preserves (ops : List Op) (db : DB) (h : ledgerOk db) :
    ledgerOk (run ops db) := by
  induction ops generalizing db with
  | nil => exact h
  | cons op ops ih => exact ih _ (applyOp_preserves db op h)

lemma ledgerOk_emptyDB : ledgerOk emptyDB := by
  refine ⟨rfl, rfl, ?_, ?_⟩ <;> simp [emptyDB]

lemma ledgerOk_initDB : ledgerOk initDB := by
  refine ⟨rfl, rfl, ?_, ?_⟩ <;> simp [initDB]

/-- C2: after any sequence of exposed operations run from a store whose
balance starts at 0 (both the fresh store and the startup-seeded store),
`Balance.total_points` equals the signed sum of the committed transaction
log, replaying the log from 0 reproduces every `balance_after`, and the
log's insertion order is strictly-increasing id order (so replay in id
order is replay of the list). -/
theorem balance_equals_signed_transaction_sum (ops : List Op) :
    (balTotal (run ops initDB) = sumSigned (run ops initDB).transactions ∧
     replayCheck 0 (run ops initDB).transactions = true ∧
     ((run ops initDB).transactions.map Transaction.id).Pairwise (· < ·)) ∧
    (balTotal (run ops emptyDB) = sumSigned (run ops emptyDB).transactions ∧
     replayCheck 0 (run ops emptyDB).transactions = true ∧
     ((run ops emptyDB).transactions.map Transaction.id).Pairwise (· < ·)) := by
  have h1 := run_preserves ops initDB ledgerOk_initDB
  have h2 := run_preserves ops emptyDB ledgerOk_emptyDB
  exact ⟨⟨h1.1, h1.2.1, h1.2.2.1⟩, ⟨h2.1, h2.2.1, h2.2.2.1⟩⟩

/-- C6 counterexample: the bot monitor's boundary is inclusive, unlike the
claim.  With the sticky flag clear (previous balance 60), a poll seeing
balance exactly 50 sends a low-balance notification although
`50 < LOW_BALANCE_THRESHOLD` is false; and when the balance rises back to
exactly 50 the flag does not reset. -/
theorem monitor_fires_at_threshold_boundary :
    (monitorStep { last_known_balance := 60, low_balance_warning_sent := false }
        50).2 = true ∧
    ¬((50 : Int) < LOW_BALANCE_THRESHOLD) ∧
    (monitorStep { last_known_balance := 30, low_balance_warning_sent := true }
        50).1.low_balance_warning_sent = true := by
  decide

/-- C6 amended: the server-side check fires exactly on the strict
transition (previous ≥ 50 and current < 50) and never while the balance
merely stays below.  The bot monitor's boundary is inclusive: it fires iff
the polled balance is ≤ 50 and the sticky flag is clear, and after a poll
the flag is set iff the balance is ≤ 50 — so it resets only when the
balance rises strictly above 50.  Away from the exact boundary the claimed
sequences hold: 60→40 fires exactly once, 40→30 fires none beyond the
startup warning for a balance already low, and 40→60→30 fires exactly once
at the genuine crossing. -/
theorem low_balance_threshold_transitions :
    (∀ p c, check_if_first_time_below_threshold p c = true ↔
       (LOW_BALANCE_THRESHOLD ≤ p ∧ c < LOW_BALANCE_THRESHOLD)) ∧
    (∀ s c, (monitorStep s c).2 = true ↔
       (c ≤ LOW_BALANCE_THRESHOLD ∧ s.low_balance_warning_sent = false)) ∧
    (∀ s c, (monitorStep s c).1.low_balance_warning_sent = true ↔
       c ≤ LOW_BALANCE_THRESHOLD) ∧
    (runMonitor (monitorInit 60).1 [40]).2 = 1 ∧
    ((monitorInit 40).2 = true ∧ (runMonitor (monitorInit 40).1 [30]).2 = 0) ∧
    (runMonitor (monitorInit 40).1 [60, 30]).2 = 1 ∧
    (check_if_first_time_below_threshold 60 40 = true ∧
     check_if_first_time_below_threshold 40 30 = false ∧
     check_if_first_time_below_threshold 60 30 = true) := by
  refine ⟨?_, ?_, ?_, by decide, ⟨by decide, by decide⟩, by decide, by decide⟩
  · intro p c
    simp [check_if_first_time_below_threshold]
  · intro s c
    cases hs : s.low_balance_warning_sent <;> simp [monitorStep, hs]
  · intro s c
    by_cases hc : c ≤ LOW_BALANCE_THRESHOLD <;>
      cases hs : s.low_balance_warning_sent <;>
        simp [monitorStep, hc, hs, not_le]

lemma find?_decomp {α : Type} (p : α → Bool) (xs : List α) (c : α)
    (h : xs.find? p = some c) :
    ∃ pre suf, xs = pre ++ c :: suf ∧ (∀ x ∈ pre, ¬p x) ∧
      ∀ f : α → α, updateFirst p f xs = pre ++ f c :: suf := by
  induction xs with
  | nil => simp at h
  | cons x xs ih =>
      by_cases hx : p x
      · have hc : c = x := by
          rw [List.find?_cons_of_pos _ hx] at h
          exact (Option.some_inj.mp h).symm
        subst hc
        exact ⟨[], xs, rfl, by simp, fun f => by simp [updateFirst, hx]⟩
      · rw [List.find?_cons_of_neg _ hx] at h
        obtain ⟨pre, suf, hxs, hpre, hupd⟩ := ih h
        refine ⟨x :: pre, suf, by rw [hxs]; rfl, ?_, ?_⟩
        · intro y hy
          rcases List.mem_cons.mp hy with rfl | hy
          · exact hx
          · exact hpre y hy
        · intro f
          simp [updateFirst, hx, hupd f]

lemma find?_append_cons {α : Type} (p : α → Bool) (pre suf : List α) (c : α)
    (hpre : ∀ x ∈ pre, ¬p x) (hc : p c) :
    (pre ++ c :: suf).find? p = some c := by
  induction pre with
  | nil => simpa using List.find?_cons_of_pos suf hc
  | cons x xs ih =>
      have hx : ¬p x := hpre x (by simp)
      rw [List.cons_append, List.find?_cons_of_neg _ hx]
      exact ih (fun y hy => hpre y (by simp [hy]))

/-- An active registration with every optional field populated. -/
def chatActive : ChatRegistration :=
  { chat_id := 2, username := some "bo", first_name := some "Bo",
    last_name := some "Ek", registered_at := 3, last_notification := some 4,
    is_active := 1 }

/-- An inactive registration for chat 1. -/
def chatOldInactive : ChatRegistration :=
  { chat_id := 1, username := some "old", first_name := none, last_name := none,
    registered_at := 0, last_notification := none, is_active := 0 }

/-- Registry with one active chat (id 2). -/
def dbActiveChat : DB :=
  { balance := none, transactions := [], chats := [chatActive], nextTxId := 1 }

/-- Registry with one inactive chat (id 1). -/
def dbInactiveChat : DB :=
  { balance := none, transactions := [], chats := [chatOldInactive], nextTxId := 1 }

/-- C8: `unregister_chat` distinguishes three outcomes.  An unknown chat_id
yields `not_found` and changes nothing; an existing inactive row yields
`already_inactive` and changes nothing; an existing active row yields
`success`, the row is marked `is_active = 0` in place (still found, not
deleted) and the registry keeps the same number of rows. -/
theorem unregister_chat_trichotomy (cid : Int) (db : DB) :
    (db.chats.find? (fun c => c.chat_id == cid) = none →
       unregister_chat cid db = (db, .not_found)) ∧
    (∀ c, db.chats.find? (fun c => c.chat_id == cid) = some c →
       c.is_active = 0 → unregister_chat cid db = (db, .already_inactive)) ∧
    (∀ c, db.chats.find? (fun c => c.chat_id == cid) = some c →
       c.is_active ≠ 0 →
       (unregister_chat cid db).2 = .success ∧
       (unregister_chat cid db).1.chats.find? (fun c => c.chat_id == cid) =
         some { c with is_active := 0 } ∧
       (unregister_chat cid db).1.chats.length = db.chats.length) := by
  refine ⟨?_, ?_, ?_⟩
  · intro hf
    simp [unregister_chat, hf]
  · intro c hf h0
    simp [unregister_chat, hf, h0]
  · intro c hf h0
    obtain ⟨pre, suf, hxs, hpre, hupd⟩ :=
      find?_decomp (fun c => c.chat_id == cid) db.chats c hf
    have hpc : (c.chat_id == cid) = true := by
      have h2 := List.find?_some hf
      simpa using h2
    refine ⟨by simp [unregister_chat, hf, h0], ?_, ?_⟩
    · simp only [unregister_chat, hf, if_neg h0]
      rw [hupd]
      exact find?_append_cons _ pre suf _ hpre hpc
    · simp only [unregister_chat, hf, if_neg h0]
      rw [hupd, hxs]
      simp

/-- C8 witness: the three outcomes at concrete stores — unknown chat 7,
inactive chat 1, active chat 2 (marked inactive in place, row count 1). -/
theorem unregister_chat_trichotomy_witness :
    (dbActiveChat.chats.find? (fun c => c.chat_id == 7) = none ∧
      unregister_chat 7 dbActiveChat = (dbActiveChat, .not_found)) ∧
    (dbInactiveChat.chats.find? (fun c => c.chat_id == 1) = some chatOldInactive ∧
      chatOldInactive.is_active = 0 ∧
      unregister_chat 1 dbInactiveChat = (dbInactiveChat, .already_inactive)) ∧
    (dbActiveChat.chats.find? (fun c => c.chat_id == 2) = some chatActive ∧
      chatActive.is_active ≠ 0 ∧
      (unregister_chat 2 dbActiveChat).2 = .success ∧
      (unregister_chat 2 dbActiveChat).1.chats.find? (fun c => c.chat_id == 2) =
        some { chatActive with is_active := 0 } ∧
      (unregister_chat 2 dbActiveChat).1.chats.length = dbActiveChat.chats.length) :=
  ⟨⟨by decide, (unregister_chat_trichotomy 7 dbActiveChat).1 (by decide)⟩,
   ⟨by decide, by decide,
     (unregister_chat_trichotomy 1 dbInactiveChat).2.1 chatOldInactive
       (by decide) (by decide)⟩,
   ⟨by decide, by decide,
     (unregister_chat_trichotomy 2 dbActiveChat).2.2 chatActive
       (by decide) (by decide)⟩⟩

/-- C10: when `unregister_chat` succeeds, the registry splits around the
first row matching the chat_id; only that row changes, and only in its
`is_active` field — `chat_id`, `username`, `first_name`, `last_name`,
`registered_at` and `last_notification` are preserved — while every other
row and the rest of the store are untouched. -/
theorem unregister_success_frame (cid : Int) (db : DB)
    (h : (unregister_chat cid db).2 = .success) :
    ∃ pre c suf c',
      db.chats = pre ++ c :: suf ∧
      (∀ x ∈ pre, x.chat_id ≠ cid) ∧
      c.chat_id = cid ∧ c.is_active ≠ 0 ∧
      (unregister_chat cid db).1 = { db with chats := pre ++ c' :: suf } ∧
      c'.chat_id = c.chat_id ∧ c'.username = c.username ∧
      c'.first_name = c.first_name ∧ c'.last_name = c.last_name ∧
      c'.registered_at = c.registered_at ∧
      c'.last_notification = c.last_notification ∧
      c'.is_active = 0 := by
  cases hf : db.chats.find? (fun c => c.chat_id == cid) with
  | none => simp [unregister_chat, hf] at h
  | some c =>
      by_cases h0 : c.is_active = 0
      · simp [unregister_chat, hf, h0] at h
      · obtain ⟨pre, suf, hxs, hpre, hupd⟩ :=
          find?_decomp (fun c => c.chat_id == cid) db.chats c hf
        have hpc : (c.chat_id == cid) = true := by
          have h2 := List.find?_some hf
          simpa using h2
        refine ⟨pre, c, suf, { c with is_active := 0 }, hxs, ?_, ?_, h0,
          ?_, rfl, rfl, rfl, rfl, rfl, rfl, rfl⟩
        · intro x hx
          have := hpre x hx
          simpa using this
        · simpa using hpc
        · simp only [unregister_chat, hf, if_neg h0]
          rw [hupd]

/-- C10 witness: unregistering active chat 2 succeeds and rewrites exactly
that row's `is_active`. -/
theorem unregister_success_frame_witness :
    (unregister_chat 2 dbActiveChat).2 = .success ∧
    ∃ pre c suf c',
      dbActiveChat.chats = pre ++ c :: suf ∧
      (∀ x ∈ pre, x.chat_id ≠ 2) ∧
      c.chat_id = 2 ∧ c.is_active ≠ 0 ∧
      (unregister_chat 2 dbActiveChat).1 =
        { dbActiveChat with chats := pre ++ c' :: suf } ∧
      c'.chat_id = c.chat_id ∧ c'.username = c.username ∧
      c'.first_name = c.first_name ∧ c'.last_name = c.last_name ∧
      c'.registered_at = c.registered_at ∧
      c'.last_notification = c.last_notification ∧
      c'.is_active = 0 :=
  ⟨by decide, unregister_success_frame 2 dbActiveChat (by decide)⟩

/-- Number of registry rows carrying a given chat_id (the `chat_id` column
has a UNIQUE constraint, so a well-formed store has at most one). -/
def countChat (cid : Int) (db : DB) : Nat :=
  (db.chats.filter (fun c => c.chat_id == cid)).length

lemma countChat_register (cid : Int) (u f1 l : Option String) (now : Nat)
    (db : DB) (h : countChat cid db ≤ 1) :
    countChat cid (register_chat cid u f1 l now db).1 = 1 := by
  cases hf : db.chats.find? (fun c => c.chat_id == cid) with
  | none =>
      have hnone : ∀ x ∈ db.chats, ¬(x.chat_id == cid) = true :=
        fun x hx => List.find?_eq_none.mp hf x hx
      have hfil : db.chats.filter (fun c => c.chat_id == cid) = [] :=
        List.filter_eq_nil_iff.mpr hnone
      simp [register_chat, hf, countChat, List.filter_append, hfil]
  | some c =>
      obtain ⟨pre, suf, hxs, hpre, hupd⟩ :=
        find?_decomp (fun c => c.chat_id == cid) db.chats c hf
      have hpc : (c.chat_id == cid) = true := by
        have h2 := List.find?_some hf
        simpa using h2
      have hprefil : pre.filter (fun c => c.chat_id == cid) = [] :=
        List.filter_eq_nil_iff.mpr hpre
      have hcount : countChat cid db =
          1 + (suf.filter (fun c => c.chat_id == cid)).length := by
        simp [countChat, hxs, List.filter_append, hprefil, hpc, Nat.add_comm]
      have hsuf : (suf.filter (fun c => c.chat_id == cid)).length = 0 := by
        omega
      simp [register_chat, hf, countChat, hupd, List.filter_append, hprefil,
        hpc, hsuf]

/-- C7: `register_chat` has upsert semantics.  If no row carries the
chat_id, exactly one new active row is created and the result reports a
creation.  If a row exists, it is refreshed in place — metadata overwritten
and `is_active` forced to 1 regardless of its previous state — the row
count is unchanged, and the result reports an update.  Under the UNIQUE
constraint on chat_id, registering the same chat_id twice leaves exactly
one row for it. -/
theorem register_chat_upsert (cid : Int) (u f1 l : Option String) (now : Nat)
    (db : DB) :
    ((∀ c ∈ db.chats, c.chat_id ≠ cid) →
       register_chat cid u f1 l now db =
         ({ db with chats := db.chats ++
             [{ chat_id := cid, username := u, first_name := f1, last_name := l,
                registered_at := now, last_notification := none,
                is_active := 1 }] },
          .created)) ∧
    (∀ c₀, db.chats.find? (fun c => c.chat_id == cid) = some c₀ →
       (register_chat cid u f1 l now db).2 = .updated ∧
       (register_chat cid u f1 l now db).1.chats.find?
           (fun c => c.chat_id == cid) =
         some { c₀ with username := u, first_name := f1, last_name := l,
                        is_active := 1, registered_at := now } ∧
       (register_chat cid u f1 l now db).1.chats.length = db.chats.length) ∧
    (countChat cid db ≤ 1 →
       ∀ u2 f2 l2 now2,
         countChat cid (register_chat cid u f1 l now db).1 = 1 ∧
         countChat cid (register_chat cid u2 f2 l2 now2
           (register_chat cid u f1 l now db).1).1 = 1) := by
  refine ⟨?_, ?_, ?_⟩
  · intro hnone
    have hf : db.chats.find? (fun c => c.chat_id == cid) = none :=
      List.find?_eq_none.mpr (fun x hx => by simpa using hnone x hx)
    simp [register_chat, hf]
  · intro c₀ hf
    obtain ⟨pre, suf, hxs, hpre, hupd⟩ :=
      find?_decomp (fun c => c.chat_id == cid) db.chats c₀ hf
    have hpc : (c₀.chat_id == cid) = true := by
      have h2 := List.find?_some hf
      simpa using h2
    refine ⟨by simp [register_chat, hf], ?_, ?_⟩
    · simp only [register_chat, hf]
      rw [hupd]
      exact find?_append_cons _ pre suf _ hpre hpc
    · simp only [register_chat, hf]
      rw [hupd, hxs]
      simp
  · intro h u2 f2 l2 now2
    have h1 := countChat_register cid u f1 l now db h
    exact ⟨h1, countChat_register cid u2 f2 l2 now2 _ (by omega)⟩

/-- C7 witness: registering chat 1 on an empty registry creates one active
row; registering chat 1 again on a registry holding its inactive row
updates that row in place (reactivated, metadata refreshed), keeps one row,
and registering twice leaves exactly one row. -/
theorem register_chat_upsert_witness :
    ((∀ c ∈ emptyDB.chats, c.chat_id ≠ 1) ∧
      register_chat 1 (some "ada") none none 5 emptyDB =
        ({ emptyDB with chats :=
            [{ chat_id := 1, username := some "ada", first_name := none,
               last_name := none, registered_at := 5,
               last_notification := none, is_active := 1 }] },
         .created)) ∧
    (dbInactiveChat.chats.find? (fun c => c.chat_id == 1) =
        some chatOldInactive ∧
      (register_chat 1 (some "ada") none none 5 dbInactiveChat).2 = .updated ∧
      (register_chat 1 (some "ada") none none 5 dbInactiveChat).1.chats.find?
          (fun c => c.chat_id == 1) =
        some { chatOldInactive with
                 username := some "ada", first_name := none,
                 last_name := none, is_active := 1, registered_at := 5 } ∧
      (register_chat 1 (some "ada") none none 5
        dbInactiveChat).1.chats.length = dbInactiveChat.chats.length) ∧
    (countChat 1 dbInactiveChat ≤ 1 ∧
      countChat 1 (register_chat 1 (some "ada") none none 5
        dbInactiveChat).1 = 1 ∧
      countChat 1 (register_chat 1 (some "eva") none none 6
        (register_chat 1 (some "ada") none none 5 dbInactiveChat).1).1 = 1) :=
  ⟨⟨by decide,
     (register_chat_upsert 1 (some "ada") none none 5 emptyDB).1 (by decide)⟩,
   ⟨by decide,
     (register_chat_upsert 1 (some "ada") none none 5 dbInactiveChat).2.1
       chatOldInactive (by decide)⟩,
   by decide,
   ((register_chat_upsert 1 (some "ada") none none 5 dbInactiveChat).2.2
      (by decide) (some "eva") none none 6).1,
   ((register_chat_upsert 1 (some "ada") none none 5 dbInactiveChat).2.2
      (by decide) (some "eva") none none 6).2⟩

lemma sortTsDesc_cons (u : Transaction) (us : List Transaction) :
    sortTsDesc (u :: us) = insertTsDesc u (sortTsDesc us) := rfl

lemma mem_insertTsDesc (x t : Transaction) (l : List Transaction) :
    x ∈ insertTsDesc t l ↔ x = t ∨ x ∈ l := by
  induction l with
  | nil => simp [insertTsDesc]
  | cons u us ih =>
      by_cases h : t.timestamp ≤ u.timestamp
      · simp [insertTsDesc, h, ih]
        tauto
      · simp [insertTsDesc, h]

lemma pairwise_insertTsDesc (t : Transaction) (l : List Transaction)
    (h : l.Pairwise (fun a b => b.timestamp ≤ a.timestamp)) :
    (insertTsDesc t l).Pairwise (fun a b => b.timestamp ≤ a.timestamp) := by
  induction l with
  | nil => simp [insertTsDesc]
  | cons u us ih =>
      rcases List.pairwise_cons.mp h with ⟨hu, hus⟩
      by_cases hle : t.timestamp ≤ u.timestamp
      · simp only [insertTsDesc, if_pos hle]
        refine List.pairwise_cons.mpr ⟨?_, ih hus⟩
        intro x hx
        rcases (mem_insertTsDesc x t us).mp hx with rfl | hx
        · exact hle
        · exact hu x hx
      · simp only [insertTsDesc, if_neg hle]
        have hut : u.timestamp ≤ t.timestamp := le_of_not_le hle
        refine List.pairwise_cons.mpr ⟨?_, h⟩
        intro x hx
        rcases List.mem_cons.mp hx with rfl | hx
        · exact hut
        · exact le_trans (hu x hx) hut

lemma mem_sortTsDesc (x : Transaction) (l : List Transaction) :
    x ∈ sortTsDesc l ↔ x ∈ l := by
  induction l with
  | nil => simp [sortTsDesc]
  | cons u us ih =>
      rw [sortTsDesc_cons, mem_insertTsDesc, ih, List.mem_cons]

lemma pairwise_sortTsDesc (l : List Transaction) :
    (sortTsDesc l).Pairwise (fun a b => b.timestamp ≤ a.timestamp) := by
  induction l with
  | nil => simp [sortTsDesc]
  | cons u us ih =>
      rw [sortTsDesc_cons]
      exact pairwise_insertTsDesc u _ ih

lemma filterStart_subset (start_date : Option Nat) (l : List Transaction)
    (t : Transaction) (h : t ∈ filterStart start_date l) : t ∈ l := by
  cases start_date with
  | none => exact h
  | some d => exact List.mem_of_mem_filter h

lemma filterEnd_subset (end_date : Option Nat) (l : List Transaction)
    (t : Transaction) (h : t ∈ filterEnd end_date l) : t ∈ l := by
  cases end_date with
  | none => exact h
  | some d => exact List.mem_of_mem_filter h

lemma mem_filterType (s : String) (l : List Transaction) (t : Transaction)
    (hs : s = "deposit" ∨ s = "withdraw")
    (h : t ∈ filterType (some s) l) : t.type = s := by
  simp only [filterType, if_pos hs] at h
  have := (List.mem_filter.mp h).2
  simpa using this

/-- A store with three committed transactions at increasing timestamps. -/
def dbTx : DB :=
  { balance := some { total_points := 7, created_at := 0, updated_at := 3 }
    transactions :=
      [{ id := 1, timestamp := 1, type := "deposit", name := "workout",
         count := 10, balance_after := 10,
         description := "Manual deposit from workout" },
       { id := 2, timestamp := 2, type := "withdraw", name := "tv",
         count := 5, balance_after := 5, description := "Withdrawal for tv" },
       { id := 3, timestamp := 3, type := "deposit", name := "bonus",
         count := 2, balance_after := 7,
         description := "Manual deposit from bonus" }]
    chats := [], nextTxId := 4 }

/-- C9: `get_transactions` with a non-negative limit returns at most
`limit` records, in newest-first order (pairwise non-increasing
timestamps), and when the kind filter is `deposit` or `withdraw` every
returned record carries that kind. -/
theorem get_transactions_spec (limit : Int) (ty : Option String)
    (start_date end_date : Option Nat) (db : DB) (hlim : 0 ≤ limit) :
    ((get_transactions limit ty start_date end_date db).length : Int) ≤ limit ∧
    (get_transactions limit ty start_date end_date db).Pairwise
      (fun a b => b.timestamp ≤ a.timestamp) ∧
    ∀ s, ty = some s → (s = "deposit" ∨ s = "withdraw") →
      ∀ t ∈ get_transactions limit ty start_date end_date db, t.type = s := by
  have hnn : ¬limit < 0 := not_lt.mpr hlim
  have hres : get_transactions limit ty start_date end_date db =
      (sortTsDesc (filterEnd end_date (filterStart start_date
        (filterType ty db.transactions)))).take limit.toNat := by
    simp [get_transactions, hnn]
  refine ⟨?_, ?_, ?_⟩
  · rw [hres]
    calc ((List.take limit.toNat _).length : Int)
        ≤ (limit.toNat : Int) := by
          exact_mod_cast List.length_take_le limit.toNat _
      _ = limit := Int.toNat_of_nonneg hlim
  · rw [hres]
    exact (pairwise_sortTsDesc _).take
  · intro s hty hs t ht
    rw [hres] at ht
    have h1 : t ∈ sortTsDesc (filterEnd end_date (filterStart start_date
        (filterType ty db.transactions))) :=
      (List.take_sublist _ _).mem ht
    have h2 := (mem_sortTsDesc _ _).mp h1
    have h3 := filterStart_subset _ _ _ (filterEnd_subset _ _ _ h2)
    subst hty
    exact mem_filterType s _ t hs h3

/-- C9 witness: with limit 2 and kind filter `deposit` on a three-entry
log, the result has at most 2 records, newest first, all deposits. -/
theorem get_transactions_spec_witness :
    (0 : Int) ≤ 2 ∧
    (((get_transactions 2 (some "deposit") none none dbTx).length : Int) ≤ 2 ∧
     (get_transactions 2 (some "deposit") none none dbTx).Pairwise
       (fun a b => b.timestamp ≤ a.timestamp) ∧
     ∀ s, (some "deposit" : Option String) = some s →
       (s = "deposit" ∨ s = "withdraw") →
       ∀ t ∈ get_transactions 2 (some "deposit") none none dbTx, t.type = s) :=
  ⟨by decide, get_transactions_spec 2 (some "deposit") none none dbTx (by decide)⟩

end FitnessRewards
